import Mathlib

/-!
# Mandrill Prometheus exporter: a shallow embedding of `main.go`

The development follows the single source file of the exporter.

* The collector (`Describe`, `Collect`, `getTags`) is embedded as pure functions:
  the channel on which `Collect` sends is the list of values sent, in sending order,
  the outcome of the HTTP exchange (`client.Do` and `ioutil.ReadAll`) is an explicit
  argument, the Go pair `(slice, error)` is a pair of a list and an optional error,
  and a Go panic is the `Except.error` result.
* The standard library call `json.Unmarshal` is embedded after its documented
  behaviour: a parser over the characters of the body, followed by the decoding of
  the parsed value into `[]mandrillTagData` (case-insensitive keys, unknown keys
  skipped, `null` without effect, type errors reported while decoding goes on).
  Bodies are Unicode strings (valid UTF-8), and a Go `int` has 64 bits.
* The conversion `float64(x)` of an `int` is embedded as rounding to 53 significant
  bits, ties to even.
* The function `main` with its shutdown goroutine is embedded as a step function on
  a state made of the two program counters, the global `healthy`, the channels and
  the server; an execution is a list of events (a goroutine runs its next statement,
  a call into `net/http` returns, a signal is delivered).
-/

namespace Mandrill

/-! ## Descriptors (`main.go` lines 19-33) -/

/-- The part of a `*prometheus.Desc` built by `prometheus.NewDesc(fqName, help,
variableLabels, nil)`. -/
structure Desc where
  fqName : String
  help : String
  variableLabels : List String
  deriving DecidableEq, Repr

/-- The call `prometheus.NewDesc(fqName, help, variableLabels, nil)`. -/
def NewDesc (fqName help : String) (variableLabels : List String) : Desc :=
  { fqName := fqName, help := help, variableLabels := variableLabels }

def sent : Desc := NewDesc "mandrill_sent_total" "Total number of sent mails." ["tag"]
def hardBounces : Desc := NewDesc "mandrill_hard_bounces" "Number of mails bounced hard" ["tag"]
def softBounces : Desc := NewDesc "mandrill_soft_bounces" "Number of mails bounced soft" ["tag"]
def rejects : Desc := NewDesc "mandrill_rejects" "Number of mails rejected" ["tag"]
def complaints : Desc := NewDesc "mandrill_complaints" "Number of complaints" ["tag"]
def unsubs : Desc := NewDesc "mandrill_unsubs" "Number of unsubscribes" ["tag"]
def opens : Desc := NewDesc "mandrill_opens" "Number of mails opened" ["tag"]
def clicks : Desc := NewDesc "mandrill_clicks" "Number of clicks inside mails" ["tag"]
def unique_opens : Desc := NewDesc "mandrill_unique_opens" "Unique number of mails opened" ["tag"]
def unique_clicks : Desc := NewDesc "mandrill_unique_clicks" "Unique number of clicks" ["tag"]
def reputation : Desc := NewDesc "mandrill_reputation" "Mandrill reputation" ["tag"]

/-- The collector: `type mandrillCollector struct { apiKey string }`. -/
structure mandrillCollector where
  apiKey : String
  deriving DecidableEq, Repr

/-- The method `Describe` (lines 39-51): the descriptors it sends on its channel,
in sending order. -/
def mandrillCollector.Describe (_m : mandrillCollector) : List Desc :=
  [sent, hardBounces, softBounces, rejects, complaints, unsubs, opens, clicks,
   unique_opens, unique_clicks, reputation]

/-! ## Records and samples (lines 53-90) -/

/-- The record type `mandrillTagData` (lines 53-66), fields in declaration order.
A Go `int` is carried as an `Int`; the decoder only stores values of the 64-bit
range. -/
structure mandrillTagData where
  Tag : String
  Sent : Int
  SoftBounces : Int
  HardBounces : Int
  Rejects : Int
  Complaints : Int
  Unsubs : Int
  Opens : Int
  Clicks : Int
  Unique_opens : Int
  Unique_clicks : Int
  Reputation : Int
  deriving DecidableEq, Repr

/-- The zero value of `mandrillTagData`. -/
def mandrillTagData.zero : mandrillTagData :=
  { Tag := "", Sent := 0, SoftBounces := 0, HardBounces := 0, Rejects := 0,
    Complaints := 0, Unsubs := 0, Opens := 0, Clicks := 0, Unique_opens := 0,
    Unique_clicks := 0, Reputation := 0 }

/-- The conversion `float64(x)` of a Go `int`: the real value of the nearest
IEEE 754 double (53 significant bits, ties to even), which for an integer argument
is again an integer. -/
def float64 (x : Int) : Int :=
  let a := x.natAbs
  if a < 2 ^ 53 then x
  else
    let e := Nat.log2 a - 52
    let q := a / 2 ^ e
    let r := a % 2 ^ e
    let half := 2 ^ (e - 1)
    let q1 := if half < r ∨ (r = half ∧ q % 2 = 1) then q + 1 else q
    if x < 0 then -((q1 * 2 ^ e : Nat) : Int) else ((q1 * 2 ^ e : Nat) : Int)

/-- The value types of `prometheus`; the collector only uses `CounterValue`. -/
inductive ValueType where
  | CounterValue
  | GaugeValue
  | UntypedValue
  deriving DecidableEq, Repr

/-- A constant metric as built by `prometheus.NewConstMetric`: descriptor, value
type, value and the label values. -/
structure Metric where
  desc : Desc
  valueType : ValueType
  value : Int
  labelValues : List String
  deriving DecidableEq, Repr

/-- The call `prometheus.MustNewConstMetric(desc, valueType, value, labelValues...)`: it
panics (here `Except.error`) when the number of label values differs from the
number of variable labels of the descriptor. -/
def MustNewConstMetric (desc : Desc) (valueType : ValueType) (value : Int)
    (labelValues : List String) : Except String Metric :=
  if labelValues.length = desc.variableLabels.length then
    .ok { desc := desc, valueType := valueType, value := value, labelValues := labelValues }
  else
    .error "inconsistent label cardinality"

/-- The body of the loop of `Collect` (lines 78-88) for one record: the eleven
sends, in source order. -/
def collectTag (tag : mandrillTagData) : Except String (List Metric) := do
  let m0 ← MustNewConstMetric sent .CounterValue (float64 tag.Sent) [tag.Tag]
  let m1 ← MustNewConstMetric hardBounces .CounterValue (float64 tag.HardBounces) [tag.Tag]
  let m2 ← MustNewConstMetric softBounces .CounterValue (float64 tag.SoftBounces) [tag.Tag]
  let m3 ← MustNewConstMetric rejects .CounterValue (float64 tag.Rejects) [tag.Tag]
  let m4 ← MustNewConstMetric complaints .CounterValue (float64 tag.Complaints) [tag.Tag]
  let m5 ← MustNewConstMetric unsubs .CounterValue (float64 tag.Unsubs) [tag.Tag]
  let m6 ← MustNewConstMetric opens .CounterValue (float64 tag.Opens) [tag.Tag]
  let m7 ← MustNewConstMetric clicks .CounterValue (float64 tag.Clicks) [tag.Tag]
  let m8 ← MustNewConstMetric unique_opens .CounterValue (float64 tag.Unique_opens) [tag.Tag]
  let m9 ← MustNewConstMetric unique_clicks .CounterValue (float64 tag.Unique_clicks) [tag.Tag]
  let m10 ← MustNewConstMetric reputation .CounterValue (float64 tag.Reputation) [tag.Tag]
  pure [m0, m1, m2, m3, m4, m5, m6, m7, m8, m9, m10]

/-- The loop `for _, tag := range tagData` of `Collect` (lines 77-89): the samples
sent on the channel, in sending order; a panic aborts the loop. -/
def collectLoop : List mandrillTagData → Except String (List Metric)
  | [] => pure []
  | tag :: rest => do
    let ms ← collectTag tag
    let more ← collectLoop rest
    pure (ms ++ more)

/-! ## JSON text (`encoding/json`, used by `getTags` at line 109) -/

/-- A parsed JSON value. A number literal without fraction and exponent is kept as
its integer value, any other number literal as its characters. -/
inductive JValue where
  | null
  | bool (b : Bool)
  | int (v : Int)
  | real (lit : List Char)
  | str (s : String)
  | arr (elems : List JValue)
  | obj (members : List (String × JValue))

/-- JSON white space: space, tab, carriage return, line feed. -/
def isSpace (c : Char) : Bool :=
  c = ' ' || c = '\t' || c = '\r' || c = '\n'

/-- Drop leading white space. -/
def skipSpace : List Char → List Char
  | [] => []
  | c :: cs => if isSpace c then skipSpace cs else c :: cs

/-- Decimal digit. -/
def isDigit (c : Char) : Bool :=
  48 ≤ c.toNat && c.toNat ≤ 57

/-- The leading decimal digits and what follows them. -/
def spanDigits : List Char → List Char × List Char
  | [] => ([], [])
  | c :: cs =>
    if isDigit c then
      let r := spanDigits cs
      (c :: r.1, r.2)
    else ([], c :: cs)

/-- The value of a sequence of decimal digits. -/
def digitsVal (ds : List Char) : Nat :=
  ds.foldl (fun acc c => 10 * acc + (c.toNat - 48)) 0

/-- The value of a hexadecimal digit. -/
def hexVal (c : Char) : Option Nat :=
  let n := c.toNat
  if 48 ≤ n && n ≤ 57 then some (n - 48)
  else if 97 ≤ n && n ≤ 102 then some (n - 87)
  else if 65 ≤ n && n ≤ 70 then some (n - 55)
  else none

/-- Four hexadecimal digits as a number. -/
def hex4 (a b c d : Char) : Option Nat := do
  let x ← hexVal a
  let y ← hexVal b
  let z ← hexVal c
  let w ← hexVal d
  pure (((x * 16 + y) * 16 + z) * 16 + w)

/-- The integer part of a number literal: `0`, or a non-zero digit followed by
digits. Returns the digits and the rest. -/
def scanIntPart (cs : List Char) : Option (List Char × List Char) :=
  match cs with
  | [] => none
  | c :: rest =>
    if c = '0' then some (['0'], rest)
    else if isDigit c then
      let r := spanDigits rest
      some (c :: r.1, r.2)
    else none

/-- An optional fraction `.digits`: the characters consumed and the rest. -/
def scanFrac (cs : List Char) : Option (List Char × List Char) :=
  match cs with
  | '.' :: rest =>
    let r := spanDigits rest
    if r.1.isEmpty then none else some ('.' :: r.1, r.2)
  | _ => some ([], cs)

/-- An optional exponent `e`, sign, digits: the characters consumed and the rest. -/
def scanExp (cs : List Char) : Option (List Char × List Char) :=
  match cs with
  | [] => some ([], [])
  | c :: rest =>
    if c = 'e' || c = 'E' then
      match rest with
      | [] => none
      | s :: rest1 =>
        if s = '+' || s = '-' then
          let r := spanDigits rest1
          if r.1.isEmpty then none else some (c :: s :: r.1, r.2)
        else
          let r := spanDigits rest
          if r.1.isEmpty then none else some (c :: r.1, r.2)
    else some ([], cs)

/-- A number literal at the head of the input. -/
def parseNumber (cs : List Char) : Option (JValue × List Char) :=
  let neg := cs.head? = some '-'
  let body := if neg then cs.tail else cs
  match scanIntPart body with
  | none => none
  | some (ds, r0) =>
    match scanFrac r0 with
    | none => none
    | some (fr, r1) =>
      match scanExp r1 with
      | none => none
      | some (ex, r2) =>
        if fr.isEmpty && ex.isEmpty then
          some (JValue.int (if neg then -(digitsVal ds : Int) else (digitsVal ds : Int)), r2)
        else
          some (JValue.real ((if neg then ['-'] else []) ++ ds ++ fr ++ ex), r2)

/-- The replacement character U+FFFD owed for a high surrogate escape that was
not followed by a low surrogate escape. -/
def flushPending (pending : Option Nat) : List Char :=
  if pending.isSome then [Char.ofNat 0xFFFD] else []

/-- The characters of a string literal after its opening quote, up to and
including the closing quote: the decoded characters and the rest. Escapes are
resolved as `encoding/json` does: an unescaped control character is an error, a
surrogate pair of `\u` escapes is one character and an unpaired surrogate escape
is U+FFFD. `pending` is the high surrogate read by the escape just before. -/
def parseStringBody (pending : Option Nat) : List Char → Option (List Char × List Char)
  | [] => none
  | c :: cs =>
    if c = '"' then some (flushPending pending, cs)
    else if c = '\\' then
      match cs with
      | [] => none
      | e :: cs1 =>
        if e = 'u' then
          match cs1 with
          | a :: b :: x :: y :: cs2 =>
            match hex4 a b x y with
            | none => none
            | some r =>
              if 0xDC00 ≤ r && r < 0xE000 then
                match pending with
                | some hi =>
                  (parseStringBody none cs2).map fun t =>
                    (Char.ofNat ((hi - 0xD800) * 1024 + (r - 0xDC00) + 0x10000) :: t.1, t.2)
                | none =>
                  (parseStringBody none cs2).map fun t => (Char.ofNat 0xFFFD :: t.1, t.2)
              else if 0xD800 ≤ r && r < 0xDC00 then
                (parseStringBody (some r) cs2).map fun t => (flushPending pending ++ t.1, t.2)
              else
                (parseStringBody none cs2).map fun t =>
                  (flushPending pending ++ Char.ofNat r :: t.1, t.2)
          | _ => none
        else
          let plain : Option Char :=
            if e = '"' then some '"'
            else if e = '\\' then some '\\'
            else if e = '/' then some '/'
            else if e = 'b' then some (Char.ofNat 8)
            else if e = 'f' then some (Char.ofNat 12)
            else if e = 'n' then some '\n'
            else if e = 'r' then some '\r'
            else if e = 't' then some '\t'
            else none
          match plain with
          | none => none
          | some d =>
            (parseStringBody none cs1).map fun t => (flushPending pending ++ d :: t.1, t.2)
    else if c.toNat < 32 then none
    else (parseStringBody none cs).map fun t => (flushPending pending ++ c :: t.1, t.2)

/-- Strip a literal word (`true`, `false`, `null`) from the head of the input. -/
def stripWord : List Char → List Char → Option (List Char)
  | [], cs => some cs
  | _ :: _, [] => none
  | w :: ws, c :: cs => if w = c then stripWord ws cs else none

/-- The deepest nesting of arrays and objects the scanner of `encoding/json`
accepts. -/
def maxNestingDepth : Nat := 10000

mutual
/-- A JSON value, after optional white space. `depth` is the number of arrays and
objects that are open around the value. The first argument bounds the depth of
the calls; `parseJSON` supplies more than any input can use. -/
def parseValue : Nat → Nat → List Char → Option (JValue × List Char)
  | 0, _, _ => none
  | fuel + 1, depth, cs =>
    match skipSpace cs with
    | [] => none
    | c :: rest =>
      if c = '"' then
        (parseStringBody none rest).map fun r => (JValue.str (String.mk r.1), r.2)
      else if c = '[' then
        if maxNestingDepth < depth + 1 then none
        else
          match skipSpace rest with
          | ']' :: rest1 => some (JValue.arr [], rest1)
          | _ => (parseElems fuel (depth + 1) rest).map fun r => (JValue.arr r.1, r.2)
      else if c = '{' then
        if maxNestingDepth < depth + 1 then none
        else
          match skipSpace rest with
          | '}' :: rest1 => some (JValue.obj [], rest1)
          | _ => (parseMembers fuel (depth + 1) rest).map fun r => (JValue.obj r.1, r.2)
      else if c = 't' then
        (stripWord ['r', 'u', 'e'] rest).map fun r => (JValue.bool true, r)
      else if c = 'f' then
        (stripWord ['a', 'l', 's', 'e'] rest).map fun r => (JValue.bool false, r)
      else if c = 'n' then
        (stripWord ['u', 'l', 'l'] rest).map fun r => (JValue.null, r)
      else parseNumber (c :: rest)
/-- The elements of a non-empty array, up to and including the closing bracket. -/
def parseElems : Nat → Nat → List Char → Option (List JValue × List Char)
  | 0, _, _ => none
  | fuel + 1, depth, cs =>
    match parseValue fuel depth cs with
    | none => none
    | some (v, rest) =>
      match skipSpace rest with
      | ',' :: rest1 => (parseElems fuel depth rest1).map fun r => (v :: r.1, r.2)
      | ']' :: rest1 => some ([v], rest1)
      | _ => none
/-- The members of a non-empty object, up to and including the closing brace. -/
def parseMembers : Nat → Nat → List Char → Option (List (String × JValue) × List Char)
  | 0, _, _ => none
  | fuel + 1, depth, cs =>
    match skipSpace cs with
    | '"' :: rest =>
      match parseStringBody none rest with
      | none => none
      | some (k, rest1) =>
        match skipSpace rest1 with
        | ':' :: rest2 =>
          match parseValue fuel depth rest2 with
          | none => none
          | some (v, rest3) =>
            match skipSpace rest3 with
            | ',' :: rest4 =>
              (parseMembers fuel depth rest4).map fun r => ((String.mk k, v) :: r.1, r.2)
            | '}' :: rest4 => some ([(String.mk k, v)], rest4)
            | _ => none
        | _ => none
    | _ => none
end

/-- A whole JSON text: one value between optional white space, nothing after it
(the validity check `json.Unmarshal` performs before decoding). -/
def parseJSON (body : String) : Option JValue :=
  match parseValue (2 * body.length + 2) 0 body.data with
  | none => none
  | some (v, rest) => if (skipSpace rest).isEmpty then some v else none

/-! ## Decoding into `[]mandrillTagData` (`json.Unmarshal(respBody, &result)`) -/

/-- The fields of `mandrillTagData`, in declaration order. -/
inductive Field where
  | Tag | Sent | SoftBounces | HardBounces | Rejects | Complaints | Unsubs | Opens
  | Clicks | Unique_opens | Unique_clicks | Reputation
  deriving DecidableEq, Repr

/-- All fields, in declaration order. -/
def Field.all : List Field :=
  [.Tag, .Sent, .SoftBounces, .HardBounces, .Rejects, .Complaints, .Unsubs, .Opens,
   .Clicks, .Unique_opens, .Unique_clicks, .Reputation]

/-- The JSON name of a field: the name in its `json:"..."` struct tag when it has
one (`SoftBounces`, `HardBounces`), the Go field name otherwise. -/
def Field.jsonName : Field → String
  | .Tag => "Tag"
  | .Sent => "Sent"
  | .SoftBounces => "soft_bounces"
  | .HardBounces => "hard_bounces"
  | .Rejects => "Rejects"
  | .Complaints => "Complaints"
  | .Unsubs => "Unsubs"
  | .Opens => "Opens"
  | .Clicks => "Clicks"
  | .Unique_opens => "Unique_opens"
  | .Unique_clicks => "Unique_clicks"
  | .Reputation => "Reputation"

/-- Case folding of one character as `encoding/json` folds names: ASCII letters to
upper case, and the two non-ASCII characters whose simple fold is an ASCII letter
(U+017F long s, U+212A Kelvin sign) to that letter. No other character folds to an
ASCII character. -/
def foldRune (c : Char) : Char :=
  if 97 ≤ c.toNat && c.toNat ≤ 122 then Char.ofNat (c.toNat - 32)
  else if c.toNat = 0x17F then 'S'
  else if c.toNat = 0x212A then 'K'
  else c

/-- Case folding of a name. -/
def foldName (s : String) : List Char :=
  s.data.map foldRune

/-- The field an object key denotes: the field whose JSON name is exactly the key,
otherwise the first field whose JSON name equals the key case-insensitively;
`none` for a key that is ignored. -/
def fieldOfKey (key : String) : Option Field :=
  match Field.all.find? (fun f => f.jsonName = key) with
  | some f => some f
  | none => Field.all.find? (fun f => foldName f.jsonName = foldName key)

/-- Read a numeric field. -/
def mandrillTagData.getInt (t : mandrillTagData) : Field → Int
  | .Tag => 0
  | .Sent => t.Sent
  | .SoftBounces => t.SoftBounces
  | .HardBounces => t.HardBounces
  | .Rejects => t.Rejects
  | .Complaints => t.Complaints
  | .Unsubs => t.Unsubs
  | .Opens => t.Opens
  | .Clicks => t.Clicks
  | .Unique_opens => t.Unique_opens
  | .Unique_clicks => t.Unique_clicks
  | .Reputation => t.Reputation

/-- Store into a numeric field (`Tag` is not numeric and is left alone). -/
def mandrillTagData.setInt (t : mandrillTagData) (f : Field) (v : Int) : mandrillTagData :=
  match f with
  | .Tag => t
  | .Sent => { t with Sent := v }
  | .SoftBounces => { t with SoftBounces := v }
  | .HardBounces => { t with HardBounces := v }
  | .Rejects => { t with Rejects := v }
  | .Complaints => { t with Complaints := v }
  | .Unsubs => { t with Unsubs := v }
  | .Opens => { t with Opens := v }
  | .Clicks => { t with Clicks := v }
  | .Unique_opens => { t with Unique_opens := v }
  | .Unique_clicks => { t with Unique_clicks := v }
  | .Reputation => { t with Reputation := v }

/-- The name of the JSON kind of a value, as the type errors of the decoder
report it. -/
def JValue.kind : JValue → String
  | .null => "null"
  | .bool _ => "bool"
  | .int _ => "number"
  | .real _ => "number"
  | .str _ => "string"
  | .arr _ => "array"
  | .obj _ => "object"

/-- Decode one member value into one field of the record. A `null` leaves the
field as it is; the string field `Tag` takes a JSON string; an `int` field takes a
number literal that `strconv.ParseInt(lit, 10, 64)` accepts (no fraction, no
exponent, within the 64-bit range). Anything else is a type error: the field is
left as it is and the error is reported; the error names the kind of the value,
and the literal as well when a number does not fit an `int` field. -/
def decodeField (t : mandrillTagData) (f : Field) (v : JValue) :
    mandrillTagData × Option String :=
  match v with
  | .null => (t, none)
  | _ =>
    match f with
    | .Tag =>
      match v with
      | .str s => ({ t with Tag := s }, none)
      | _ => (t, some ("json: cannot unmarshal " ++ v.kind ++ " into Go struct field " ++
                "mandrillTagData.Tag of type string"))
    | _ =>
      match v with
      | .int n =>
        if -(2 ^ 63 : Int) ≤ n ∧ n < (2 ^ 63 : Int) then (t.setInt f n, none)
        else (t, some ("json: cannot unmarshal number " ++ toString n ++
                " into Go struct field mandrillTagData." ++ f.jsonName ++ " of type int"))
      | .real lit =>
        (t, some ("json: cannot unmarshal number " ++ String.mk lit ++
                " into Go struct field mandrillTagData." ++ f.jsonName ++ " of type int"))
      | _ => (t, some ("json: cannot unmarshal " ++ v.kind ++ " into Go struct field " ++
                "mandrillTagData." ++ f.jsonName ++ " of type int"))

/-- The first of two errors (the decoder keeps the first type error it meets). -/
def firstError (a b : Option String) : Option String :=
  match a with
  | some e => some e
  | none => b

/-- Decode the members of an object into a record, in the order of the text: a
member whose key denotes no field is skipped, a later member for the same field
overwrites an earlier one, and decoding goes on after a type error. -/
def decodeMembers (t : mandrillTagData) :
    List (String × JValue) → mandrillTagData × Option String
  | [] => (t, none)
  | (k, v) :: rest =>
    match fieldOfKey k with
    | none => decodeMembers t rest
    | some f =>
      let r := decodeField t f v
      let r1 := decodeMembers r.1 rest
      (r1.1, firstError r.2 r1.2)

/-- Decode one array element into a fresh (zero) slice element: an object fills
the record, `null` leaves it zero, any other value is a type error and leaves it
zero. -/
def decodeElem (v : JValue) : mandrillTagData × Option String :=
  match v with
  | .obj members => decodeMembers mandrillTagData.zero members
  | .null => (mandrillTagData.zero, none)
  | _ => (mandrillTagData.zero,
      some ("json: cannot unmarshal " ++ v.kind ++ " into Go value of type main.mandrillTagData"))

/-- Decode the elements of an array, in order. -/
def decodeElems : List JValue → List mandrillTagData × Option String
  | [] => ([], none)
  | v :: rest =>
    let r := decodeElem v
    let r1 := decodeElems rest
    (r.1 :: r1.1, firstError r.2 r1.2)

/-- The call `json.Unmarshal(respBody, &result)` with `result` the empty slice
`[]mandrillTagData{}`: the slice after the call and the error returned. A text that
is not valid JSON leaves the slice untouched; an array is decoded element by
element; `null` makes the slice nil; any other value is a type error. The text of
a syntax error depends on the offending character and position, which are not
tracked here: one text stands for every `*json.SyntaxError`. -/
def Unmarshal (respBody : String) : List mandrillTagData × Option String :=
  match parseJSON respBody with
  | none => ([], some "json: syntax error")
  | some (.arr elems) => decodeElems elems
  | some .null => ([], none)
  | some v => ([], some ("json: cannot unmarshal " ++ v.kind ++
      " into Go value of type []main.mandrillTagData"))

/-! ## `getTags` and `Collect` (lines 68-115) -/

/-- The request built at lines 94-101. -/
structure Request where
  method : String
  url : String
  contentType : String
  body : String
  deriving DecidableEq, Repr

/-- The request body written into the buffer at lines 94-97: three `WriteString`
calls, the API key in the middle, unchanged. -/
def requestBody (m : mandrillCollector) : String :=
  "\x7b\"key\": \"" ++ m.apiKey ++ "\"\x7d"

/-- The request of lines 100-101. -/
def newRequest (m : mandrillCollector) : Request :=
  { method := "POST",
    url := "https://mandrillapp.com/api/1.0/tags/list.json",
    contentType := "application/json; charset=utf-8",
    body := requestBody m }

/-- The method `getTags` (lines 92-115). `Do` stands for `client.Do` followed
by `ioutil.ReadAll(resp.Body)`: it answers the request with a transport error or
with the bytes of the response body. The result is the Go pair: the slice (nil is
the empty list) and the error (`none` is nil). -/
def mandrillCollector.getTags (m : mandrillCollector) (Do : Request → Except String String) :
    List mandrillTagData × Option String :=
  match Do (newRequest m) with
  | .error err => ([], some err)
  | .ok respBody =>
    let r := Unmarshal respBody
    match r.2 with
    | some err => ([], some err)
    | none => (r.1, none)

/-- The effects of one call of `Collect`: the lines printed by `log.Print` and the
samples sent on the channel. -/
structure CollectResult where
  logged : List String
  sent : List Metric
  deriving DecidableEq, Repr

/-- The method `Collect` (lines 68-90): `getTags`, the error (if any) is logged and
the loop runs over the slice that was returned. `Except.error` is a panic. -/
def mandrillCollector.Collect (m : mandrillCollector) (Do : Request → Except String String) :
    Except String CollectResult :=
  let r := m.getTags Do
  let logged := match r.2 with
    | some err => [err]
    | none => []
  match collectLoop r.1 with
  | .error p => .error p
  | .ok ms => .ok { logged := logged, sent := ms }

/-! ## The liveness handler (lines 193-201) -/

/-- What a handler wrote to its `http.ResponseWriter`: the status code of
`WriteHeader` and the bytes of the body. -/
structure Response where
  status : Nat
  body : String
  deriving DecidableEq, Repr

/-- The constant `http.StatusNoContent`. -/
def StatusNoContent : Nat := 204

/-- The constant `http.StatusServiceUnavailable`. -/
def StatusServiceUnavailable : Nat := 503

/-- The handler returned by `healthz()`, as a function of the value of the global
`healthy` when `atomic.LoadInt32(&healthy)` reads it: the response written and the
value of `healthy` after the handler. -/
def healthz (healthy : Int) : Response × Int :=
  if healthy = 1 then
    ({ status := StatusNoContent, body := "" }, healthy)
  else
    ({ status := StatusServiceUnavailable, body := "" }, healthy)

/-! ## `main` and the shutdown goroutine (lines 143-172) -/

/-- Where the main goroutine stands, from line 146 on (`signal.Notify` done). -/
inductive MainPc where
  /-- Before the `go` statement of line 147. -/
  | setup
  /-- After the `go` statement, before `atomic.StoreInt32(&healthy, 1)` (line 163). -/
  | spawned
  /-- After the store of line 163, calling `server.ListenAndServe()` (line 167). -/
  | ready
  /-- Inside `ListenAndServe`, the listener bound and serving. -/
  | listening
  /-- After `ListenAndServe` returned `http.ErrServerClosed`; blocked on `<-done` (line 171). -/
  | waitDone
  /-- After `main` returned (line 173). -/
  | returned
  /-- After `log.Fatalf` of line 168 ran. -/
  | fatal
  deriving DecidableEq, Repr

/-- Where the goroutine of lines 147-160 stands. -/
inductive ShutdownPc where
  /-- The `go` statement has not run yet. -/
  | notStarted
  /-- Blocked on `<-quit` (line 148). -/
  | waitQuit
  /-- A signal was received, before `atomic.StoreInt32(&healthy, 0)` (line 150). -/
  | signalled
  /-- After the store of line 150, before `context.WithTimeout` (line 152). -/
  | flagCleared
  /-- After line 152, before `server.SetKeepAlivesEnabled(false)` (line 155). -/
  | ctxMade
  /-- After line 155, before `server.Shutdown(ctx)` (line 156). -/
  | keepAlivesOff
  /-- Inside `server.Shutdown(ctx)`: the listeners are closed, connections drain. -/
  | draining
  /-- After `Shutdown` returned nil, before `close(done)` (line 159). -/
  | drained
  /-- After `close(done)`. -/
  | finished
  /-- After `Shutdown` returned an error and `logger.Fatalf` of line 157 ran. -/
  | fatal
  deriving DecidableEq, Repr

/-- Whether the goroutine has executed `atomic.StoreInt32(&healthy, 0)`. -/
def ShutdownPc.storedUnhealthy : ShutdownPc → Bool
  | .notStarted => false
  | .waitQuit => false
  | .signalled => false
  | _ => true

/-- Whether the main goroutine has executed `atomic.StoreInt32(&healthy, 1)`. -/
def MainPc.storedHealthy : MainPc → Bool
  | .setup => false
  | .spawned => false
  | _ => true

/-- The duration `5 * time.Second`, in nanoseconds (the unit of `time.Duration`). -/
def drainTimeout : Nat := 5 * 1000000000

/-- The state of the process during `main`. -/
structure State where
  /-- The global `healthy`. -/
  healthy : Int
  mainPc : MainPc
  goPc : ShutdownPc
  /-- The number of signals buffered in `quit` (capacity 1). -/
  quit : Nat
  /-- Whether the server has keep-alives enabled (the default). -/
  keepAlives : Bool
  /-- Whether `server.Shutdown` has been called. -/
  inShutdown : Bool
  /-- The timeout of the context made at line 152, once made. -/
  ctxTimeout : Option Nat
  /-- Whether `done` is closed. -/
  doneClosed : Bool
  /-- Whether the process has exited. -/
  exited : Bool
  deriving DecidableEq, Repr

/-- The state at line 146: `healthy` has its zero value, `quit` is empty and
registered with `signal.Notify`, the server is configured and not started. -/
def State.init : State :=
  { healthy := 0, mainPc := .setup, goPc := .notStarted, quit := 0, keepAlives := true,
    inShutdown := false, ctxTimeout := none, doneClosed := false, exited := false }

/-- What can happen next: a goroutine executes its next statement, a call into
`net/http` produces one of its outcomes, or the operating system delivers a
signal. -/
inductive Event where
  /-- The main goroutine executes its next statement (`go`, the store, `<-done`). -/
  | mainStep
  /-- The call `ListenAndServe` cannot bind the address and returns that error. -/
  | listenFail
  /-- The call `ListenAndServe` binds the address and starts serving. -/
  | listenOk
  /-- The call `ListenAndServe` fails while accepting and returns that error. -/
  | acceptFail
  /-- The call `ListenAndServe` returns `http.ErrServerClosed`. -/
  | serverClosed
  /-- The shutdown goroutine executes its next statement. -/
  | goStep
  /-- The call `server.Shutdown(ctx)` returns nil. -/
  | drainDone
  /-- The call `server.Shutdown(ctx)` returns the error of the expired context. -/
  | drainExpired
  /-- An interrupt signal is delivered to the process. -/
  | signal
  deriving DecidableEq, Repr

/-- One step of the process; `none` when the event cannot happen in the state. -/
def step (s : State) (e : Event) : Option State :=
  if s.exited then none
  else
    match e with
    | .signal => some { s with quit := min (s.quit + 1) 1 }
    | .mainStep =>
      match s.mainPc with
      | .setup => some { s with mainPc := .spawned, goPc := .waitQuit }
      | .spawned => some { s with mainPc := .ready, healthy := 1 }
      | .waitDone => if s.doneClosed then some { s with mainPc := .returned, exited := true } else none
      | _ => none
    | .listenFail =>
      match s.mainPc with
      | .ready => if s.inShutdown then none else some { s with mainPc := .fatal, exited := true }
      | _ => none
    | .listenOk =>
      match s.mainPc with
      | .ready => if s.inShutdown then none else some { s with mainPc := .listening }
      | _ => none
    | .acceptFail =>
      match s.mainPc with
      | .listening => if s.inShutdown then none else some { s with mainPc := .fatal, exited := true }
      | _ => none
    | .serverClosed =>
      match s.mainPc with
      | .ready => if s.inShutdown then some { s with mainPc := .waitDone } else none
      | .listening => if s.inShutdown then some { s with mainPc := .waitDone } else none
      | _ => none
    | .goStep =>
      match s.goPc with
      | .waitQuit => if 0 < s.quit then some { s with goPc := .signalled, quit := s.quit - 1 } else none
      | .signalled => some { s with goPc := .flagCleared, healthy := 0 }
      | .flagCleared => some { s with goPc := .ctxMade, ctxTimeout := some drainTimeout }
      | .ctxMade => some { s with goPc := .keepAlivesOff, keepAlives := false }
      | .keepAlivesOff => some { s with goPc := .draining, inShutdown := true }
      | .drained => some { s with goPc := .finished, doneClosed := true }
      | _ => none
    | .drainDone =>
      match s.goPc with
      | .draining => some { s with goPc := .drained }
      | _ => none
    | .drainExpired =>
      match s.goPc with
      | .draining => some { s with goPc := .fatal, exited := true }
      | _ => none

/-- The state after a sequence of events; `none` when one of them cannot happen. -/
def run (s : State) : List Event → Option State
  | [] => some s
  | e :: es =>
    match step s e with
    | none => none
    | some s1 => run s1 es

/-- The states an execution goes through, the first one included; the execution
stops at the first event that cannot happen. -/
def trace (s : State) : List Event → List State
  | [] => [s]
  | e :: es =>
    match step s e with
    | none => [s]
    | some s1 => s :: trace s1 es

/-! ## Reference values used in the statements -/

deriving instance DecidableEq for Except

/-- The eleven samples expected for one record, written out: descriptor, value
type, value and label of each, in the order of the sends. -/
def tagSamples (tag : mandrillTagData) : List Metric :=
  [ { desc := sent, valueType := .CounterValue, value := float64 tag.Sent,
      labelValues := [tag.Tag] },
    { desc := hardBounces, valueType := .CounterValue, value := float64 tag.HardBounces,
      labelValues := [tag.Tag] },
    { desc := softBounces, valueType := .CounterValue, value := float64 tag.SoftBounces,
      labelValues := [tag.Tag] },
    { desc := rejects, valueType := .CounterValue, value := float64 tag.Rejects,
      labelValues := [tag.Tag] },
    { desc := complaints, valueType := .CounterValue, value := float64 tag.Complaints,
      labelValues := [tag.Tag] },
    { desc := unsubs, valueType := .CounterValue, value := float64 tag.Unsubs,
      labelValues := [tag.Tag] },
    { desc := opens, valueType := .CounterValue, value := float64 tag.Opens,
      labelValues := [tag.Tag] },
    { desc := clicks, valueType := .CounterValue, value := float64 tag.Clicks,
      labelValues := [tag.Tag] },
    { desc := unique_opens, valueType := .CounterValue, value := float64 tag.Unique_opens,
      labelValues := [tag.Tag] },
    { desc := unique_clicks, valueType := .CounterValue, value := float64 tag.Unique_clicks,
      labelValues := [tag.Tag] },
    { desc := reputation, valueType := .CounterValue, value := float64 tag.Reputation,
      labelValues := [tag.Tag] } ]

/-- The metric names of the specification's name-to-field table, in table order. -/
def specMetricNames : List String :=
  ["sent_total", "hard_bounces", "soft_bounces", "rejects", "complaints", "unsubs",
   "opens", "clicks", "unique_opens", "unique_clicks", "reputation"]

/-- The fields in the order of the specification's name-to-field table, read from
a record. -/
def specFieldValues (tag : mandrillTagData) : List Int :=
  [tag.Sent, tag.HardBounces, tag.SoftBounces, tag.Rejects, tag.Complaints, tag.Unsubs,
   tag.Opens, tag.Clicks, tag.Unique_opens, tag.Unique_clicks, tag.Reputation]

/-- A response body with two records that carry the same tag. -/
def twoEqualTagsBody : String :=
  "[\x7b\"Tag\":\"news\",\"Sent\":1\x7d,\x7b\"Tag\":\"news\",\"Sent\":2\x7d]"

/-- A transport that answers every request with `twoEqualTagsBody`. -/
def twoEqualTagsDo : Request → Except String String :=
  fun _ => .ok twoEqualTagsBody

/-- A response body with two records of different tags. -/
def twoTagsBody : String :=
  "[\x7b\"Tag\":\"b\",\"Clicks\":3\x7d, \x7b\"Tag\":\"a\",\"Clicks\":4\x7d]"

/-- A transport that answers every request with `twoTagsBody`. -/
def twoTagsDo : Request → Except String String :=
  fun _ => .ok twoTagsBody

/-- A response body with one record. -/
def oneTagBody : String :=
  "[\x7b\"Tag\":\"news\",\"Sent\":7,\"Reputation\":50\x7d]"

/-- A transport that answers every request with `oneTagBody`. -/
def oneTagDo : Request → Except String String :=
  fun _ => .ok oneTagBody

/-- A transport on which `client.Do` fails. -/
def failingDo : Request → Except String String :=
  fun _ => .error "dial tcp: i/o timeout"

/-- The fully-qualified names the descriptors are declared with: the names of the
specification's table behind the namespace `mandrill_`. -/
def qualifiedMetricNames : List String :=
  specMetricNames.map (fun n => "mandrill_" ++ n)

/-- Whether the goroutine has executed `server.SetKeepAlivesEnabled(false)`. -/
def ShutdownPc.disabledKeepAlives : ShutdownPc → Bool
  | .keepAlivesOff => true
  | .draining => true
  | .drained => true
  | .finished => true
  | .fatal => true
  | _ => false

/-- Whether the goroutine has called `server.Shutdown(ctx)`. -/
def ShutdownPc.calledShutdown : ShutdownPc → Bool
  | .draining => true
  | .drained => true
  | .finished => true
  | .fatal => true
  | _ => false

/-- Whether the goroutine has executed `context.WithTimeout` (line 152). -/
def ShutdownPc.madeCtx : ShutdownPc → Bool
  | .notStarted => false
  | .waitQuit => false
  | .signalled => false
  | .flagCleared => false
  | _ => true

/-- An execution in which the address cannot be bound, up to the call of
`ListenAndServe`. -/
def bindFailureEvents : List Event :=
  [.mainStep, .mainStep]

/-- An execution in which the signal is delivered and handled before the main
goroutine reaches line 163. -/
def earlySignalEvents : List Event :=
  [.mainStep, .signal, .goStep, .goStep, .mainStep]

/-- An execution that serves, is interrupted and shuts down in time. -/
def gracefulEvents : List Event :=
  [.mainStep, .mainStep, .listenOk, .signal, .goStep, .goStep, .goStep, .goStep, .goStep,
   .serverClosed, .drainDone, .goStep, .mainStep]

/-- The state in which `gracefulEvents` ends. -/
def gracefulFinal : State :=
  { healthy := 0, mainPc := .returned, goPc := .finished, quit := 0, keepAlives := false,
    inShutdown := true, ctxTimeout := some 5000000000, doneClosed := true, exited := true }

/-- Whether a value is a JSON object. -/
def JValue.isObject : JValue → Bool
  | .obj _ => true
  | _ => false

/-- The members of a JSON object (none for any other value). -/
def JValue.members : JValue → List (String × JValue)
  | .obj ms => ms
  | _ => []

/-- Whether a text is a JSON array all of whose elements are objects. -/
def isArrayOfObjects (body : String) : Bool :=
  match parseJSON body with
  | some (.arr elems) => elems.all JValue.isObject
  | _ => false

/-- The objects of a JSON array, as their member lists, in order. -/
def bodyObjects (body : String) : List (List (String × JValue)) :=
  match parseJSON body with
  | some (.arr elems) => elems.map JValue.members
  | _ => []

/-- Whether a member carries a value of the type of the field its key denotes: a
string for `Tag`, an integer literal of the 64-bit range for a numeric field. A
member whose key denotes no field is not constrained. -/
def wellTypedMember (kv : String × JValue) : Bool :=
  match fieldOfKey kv.1 with
  | none => true
  | some .Tag =>
    match kv.2 with
    | .str _ => true
    | _ => false
  | some _ =>
    match kv.2 with
    | .int n => decide (-(2 ^ 63 : Int) ≤ n ∧ n < (2 ^ 63 : Int))
    | _ => false

/-- Whether a value is an object all of whose members are well typed. -/
def wellTypedObject : JValue → Bool
  | .obj ms => ms.all wellTypedMember
  | _ => false

/-- Whether a text is a JSON array of objects with well-typed members. -/
def wellTypedBody (body : String) : Bool :=
  match parseJSON body with
  | some (.arr elems) => elems.all wellTypedObject
  | _ => false

/-- The value an object gives to a field: the value of the last member whose key
denotes the field; `none` when no member does. -/
def memberFor (f : Field) : List (String × JValue) → Option JValue
  | [] => none
  | (k, v) :: rest =>
    match memberFor f rest with
    | some w => some w
    | none => if fieldOfKey k = some f then some v else none

/-- The response body of the specification's scenario. -/
def welcomeBody : String :=
  "[\x7b\"Tag\":\"welcome\",\"Sent\":100,\"hard_bounces\":2,\"Opens\":40,\"Reputation\":85\x7d]"

/-- A transport that answers every request with `welcomeBody`. -/
def welcomeDo : Request → Except String String :=
  fun _ => .ok welcomeBody

/-- An array of one object whose `Sent` member is a string. -/
def stringSentBody : String :=
  "[\x7b\"Tag\":\"welcome\",\"Sent\":\"100\"\x7d]"

/-- A transport that answers every request with `stringSentBody`. -/
def stringSentDo : Request → Except String String :=
  fun _ => .ok stringSentBody

/-- The credential a request body carries, read as the claim reads it: the body is
a JSON object with the single member "key" whose value is a string; `none` when
the body is not such a document. -/
def decodedKey (body : String) : Option String :=
  match parseJSON body with
  | some (.obj [(k, .str v)]) => if k = "key" then some v else none
  | _ => none

/-- A character that stands for itself inside a JSON string literal: not the
quote, not the backslash, not a control character. -/
def plainChar (c : Char) : Bool :=
  c != '"' && c != '\\' && decide (32 ≤ c.toNat)

/-- A credential that contains a double quote. -/
def quoteKey : mandrillCollector := { apiKey := "a\"b" }

/-- A credential that ends in a backslash. -/
def backslashKey : mandrillCollector := { apiKey := "ab\\" }

/-- A credential that contains a backslash followed by the letter n. -/
def escapeKey : mandrillCollector := { apiKey := "a\\nb" }

/-- A credential that closes the string and opens a second member. -/
def injectingKey : mandrillCollector := { apiKey := "a\", \"id\": \"7" }

/-- A response body whose `Sent` is 2^53 + 1, an `int` that no double represents. -/
def bigSentBody : String :=
  "[\x7b\"Tag\":\"big\",\"Sent\":9007199254740993\x7d]"

/-- A transport that answers every request with `bigSentBody`. -/
def bigSentDo : Request → Except String String :=
  fun _ => .ok bigSentBody

/-! # Theorems -/

/-! ## The collector -/

theorem float64_exact (x : Int) (h : x.natAbs < 2 ^ 53) : float64 x = x := by
  unfold float64
  exact if_pos h

theorem log2_of_bounds (n k : Nat) (h1 : 2 ^ k ≤ n) (h2 : n < 2 ^ (k + 1)) :
    Nat.log2 n = k := by
  have hn : n ≠ 0 := by
    intro h0
    subst h0
    exact absurd h1 (Nat.not_le.2 (Nat.two_pow_pos k))
  have a := (Nat.le_log2 hn).2 h1
  have b := (Nat.log2_lt hn).2 h2
  omega

/-- The conversion is exact up to 2^53 in absolute value. -/
theorem float64_exact_le (x : Int) (h : x.natAbs ≤ 2 ^ 53) : float64 x = x := by
  rcases Nat.lt_or_ge x.natAbs (2 ^ 53) with hlt | hge
  · exact float64_exact x hlt
  · have he : x.natAbs = 2 ^ 53 := Nat.le_antisymm h hge
    have hl : Nat.log2 (2 ^ 53) = 53 := log2_of_bounds _ _ (le_refl _) (by norm_num)
    unfold float64
    simp only [he, hl]
    rcases Int.natAbs_eq x with hx | hx
    · rw [he] at hx
      rw [hx]
      decide
    · rw [he] at hx
      rw [hx]
      decide

/-- The conversion of 2^53 + 1 is 2^53: the tie goes to the even significand. -/
theorem float64_rounds_to_even : float64 9007199254740993 = 9007199254740992 := by
  have hl : Nat.log2 9007199254740993 = 53 :=
    log2_of_bounds _ _ (by norm_num) (by norm_num)
  unfold float64
  simp only [show Int.natAbs 9007199254740993 = 9007199254740993 from rfl, hl]
  decide

theorem collectTag_eq (tag : mandrillTagData) : collectTag tag = .ok (tagSamples tag) := by
  rfl

theorem tagSamples_length (tag : mandrillTagData) : (tagSamples tag).length = 11 := by
  rfl

theorem tagSamples_descs (m : mandrillCollector) (tag : mandrillTagData) :
    (tagSamples tag).map (fun s => s.desc) = m.Describe := by
  rfl

theorem collectLoop_eq (recs : List mandrillTagData) :
    collectLoop recs = .ok (recs.flatMap tagSamples) := by
  induction recs with
  | nil => rfl
  | cons tag rest ih =>
    simp only [collectLoop, collectTag_eq, ih, List.flatMap_cons]
    rfl

theorem flatMap_tagSamples_length (recs : List mandrillTagData) :
    (recs.flatMap tagSamples).length = 11 * recs.length := by
  induction recs with
  | nil => rfl
  | cons tag rest ih =>
    simp only [List.flatMap_cons, List.length_append, tagSamples_length, ih, List.length_cons]
    omega

theorem flatMap_tagSamples_drop (recs : List mandrillTagData) (i : Nat) :
    (recs.flatMap tagSamples).drop (11 * i) = (recs.drop i).flatMap tagSamples := by
  induction recs generalizing i with
  | nil => simp
  | cons tag rest ih =>
    cases i with
    | zero => simp
    | succ k =>
      have h11 : 11 * (k + 1) = (tagSamples tag).length + 11 * k := by
        rw [tagSamples_length]; omega
      rw [List.flatMap_cons, h11, List.drop_append, ih]
      simp

theorem flatMap_tagSamples_block (recs : List mandrillTagData) (i : Nat)
    (hi : i < recs.length) :
    ((recs.flatMap tagSamples).drop (11 * i)).take 11 = tagSamples (recs.get ⟨i, hi⟩) := by
  rw [flatMap_tagSamples_drop]
  have hd : recs.drop i = recs.get ⟨i, hi⟩ :: recs.drop (i + 1) := by
    rw [List.drop_eq_getElem_cons hi]; rfl
  rw [hd, List.flatMap_cons]
  have := List.take_left (tagSamples (recs.get ⟨i, hi⟩)) ((recs.drop (i + 1)).flatMap tagSamples)
  rwa [tagSamples_length] at this

theorem Collect_of_getTags (m : mandrillCollector) (Do : Request → Except String String)
    (recs : List mandrillTagData) (err : Option String) (h : m.getTags Do = (recs, err)) :
    m.Collect Do = .ok { logged := err.toList, sent := recs.flatMap tagSamples } := by
  unfold mandrillCollector.Collect
  simp only [h, collectLoop_eq]
  cases err <;> rfl

/-- Counterexample to claim C1 as stated: for the body
[{"Tag":"big","Sent":9007199254740993}] getTags returns the record with
Sent = 9007199254740993, and the sample Collect sends for the descriptor sent has the
value 9007199254740992: the value is the float64 conversion of the field and not the
field. -/
theorem Collect_value_is_rounded_field :
    (mandrillCollector.mk "k").getTags bigSentDo =
        ([{ mandrillTagData.zero with Tag := "big", Sent := 9007199254740993 }], none) ∧
      ∃ out, (mandrillCollector.mk "k").Collect bigSentDo = .ok out ∧
        out.sent.map (fun s => (s.desc.fqName, s.value)) =
          [("mandrill_sent_total", 9007199254740992), ("mandrill_hard_bounces", 0),
           ("mandrill_soft_bounces", 0), ("mandrill_rejects", 0), ("mandrill_complaints", 0),
           ("mandrill_unsubs", 0), ("mandrill_opens", 0), ("mandrill_clicks", 0),
           ("mandrill_unique_opens", 0), ("mandrill_unique_clicks", 0),
           ("mandrill_reputation", 0)] ∧
        ∀ s ∈ out.sent, s.value ≠ 9007199254740993 := by
  have hg : (mandrillCollector.mk "k").getTags bigSentDo =
      ([{ mandrillTagData.zero with Tag := "big", Sent := 9007199254740993 }], none) := by
    decide
  refine ⟨hg, _, Collect_of_getTags _ _ _ _ hg, ?_, ?_⟩
  · simp only [List.flatMap_cons, List.flatMap_nil, List.append_nil, tagSamples,
      List.map_cons, List.map_nil, float64_rounds_to_even]
    decide
  · simp only [List.flatMap_cons, List.flatMap_nil, List.append_nil, tagSamples,
      float64_rounds_to_even]
    decide

/-- Claim C1, amended. For every sequence of N records that getTags returns without
error, Collect does not panic and sends exactly 11*N samples; the eleven samples
sent for the record at position i are, one per descriptor, the descriptors sent,
hardBounces, softBounces, rejects, complaints, unsubs, opens, clicks, unique_opens,
unique_clicks and reputation, each with the float64 conversion of the matching
field (Sent, HardBounces, SoftBounces, Rejects, Complaints, Unsubs, Opens, Clicks,
Unique_opens, Unique_clicks, Reputation) as value and the record's Tag as its single
label value, and each descriptor of Describe occurs exactly once among them; every
record has its own block, so records with equal Tag are neither merged nor dropped.
The float64 conversion of a field is the field itself whenever the field is at
most 2^53 in absolute value. -/
theorem Collect_sends_eleven_per_record (m : mandrillCollector)
    (Do : Request → Except String String) (recs : List mandrillTagData)
    (h : m.getTags Do = (recs, none)) :
    (∃ out, m.Collect Do = .ok out ∧ out.sent.length = 11 * recs.length ∧
      ∀ (i : Nat) (hi : i < recs.length),
        (out.sent.drop (11 * i)).take 11 =
          [ { desc := sent, valueType := .CounterValue,
              value := float64 (recs.get ⟨i, hi⟩).Sent,
              labelValues := [(recs.get ⟨i, hi⟩).Tag] },
            { desc := hardBounces, valueType := .CounterValue,
              value := float64 (recs.get ⟨i, hi⟩).HardBounces,
              labelValues := [(recs.get ⟨i, hi⟩).Tag] },
            { desc := softBounces, valueType := .CounterValue,
              value := float64 (recs.get ⟨i, hi⟩).SoftBounces,
              labelValues := [(recs.get ⟨i, hi⟩).Tag] },
            { desc := rejects, valueType := .CounterValue,
              value := float64 (recs.get ⟨i, hi⟩).Rejects,
              labelValues := [(recs.get ⟨i, hi⟩).Tag] },
            { desc := complaints, valueType := .CounterValue,
              value := float64 (recs.get ⟨i, hi⟩).Complaints,
              labelValues := [(recs.get ⟨i, hi⟩).Tag] },
            { desc := unsubs, valueType := .CounterValue,
              value := float64 (recs.get ⟨i, hi⟩).Unsubs,
              labelValues := [(recs.get ⟨i, hi⟩).Tag] },
            { desc := opens, valueType := .CounterValue,
              value := float64 (recs.get ⟨i, hi⟩).Opens,
              labelValues := [(recs.get ⟨i, hi⟩).Tag] },
            { desc := clicks, valueType := .CounterValue,
              value := float64 (recs.get ⟨i, hi⟩).Clicks,
              labelValues := [(recs.get ⟨i, hi⟩).Tag] },
            { desc := unique_opens, valueType := .CounterValue,
              value := float64 (recs.get ⟨i, hi⟩).Unique_opens,
              labelValues := [(recs.get ⟨i, hi⟩).Tag] },
            { desc := unique_clicks, valueType := .CounterValue,
              value := float64 (recs.get ⟨i, hi⟩).Unique_clicks,
              labelValues := [(recs.get ⟨i, hi⟩).Tag] },
            { desc := reputation, valueType := .CounterValue,
              value := float64 (recs.get ⟨i, hi⟩).Reputation,
              labelValues := [(recs.get ⟨i, hi⟩).Tag] } ] ∧
        ∀ d ∈ m.Describe,
          (((out.sent.drop (11 * i)).take 11).map (fun s => s.desc)).count d = 1) ∧
      ∀ x : Int, x.natAbs ≤ 2 ^ 53 → float64 x = x := by
  refine ⟨⟨_, Collect_of_getTags m Do recs none h, flatMap_tagSamples_length recs, ?_⟩,
    float64_exact_le⟩
  intro i hi
  refine ⟨flatMap_tagSamples_block recs i hi, ?_⟩
  intro d hd
  show ((List.take 11 (List.drop (11 * i) (recs.flatMap tagSamples))).map
    (fun s => s.desc)).count d = 1
  rw [flatMap_tagSamples_block recs i hi, tagSamples_descs m]
  simp only [mandrillCollector.Describe, List.mem_cons, List.mem_singleton, List.not_mem_nil,
    or_false] at hd
  unfold mandrillCollector.Describe
  rcases hd with h | h | h | h | h | h | h | h | h | h | h <;> subst h <;> decide

/-- Witness of claim C1 (amended): a response with two records of equal tag. -/
theorem Collect_sends_eleven_per_record_witness :
    (mandrillCollector.mk "k").getTags twoEqualTagsDo =
        ([{ mandrillTagData.zero with Tag := "news", Sent := 1 },
          { mandrillTagData.zero with Tag := "news", Sent := 2 }], none) ∧
      ∃ out, (mandrillCollector.mk "k").Collect twoEqualTagsDo = .ok out ∧
        out.sent.length = 11 * 2 :=
  ⟨by decide,
   (Collect_sends_eleven_per_record (mandrillCollector.mk "k") twoEqualTagsDo
      [{ mandrillTagData.zero with Tag := "news", Sent := 1 },
       { mandrillTagData.zero with Tag := "news", Sent := 2 }] (by decide)).1.imp
     (fun _ h => ⟨h.1, h.2.1⟩)⟩

theorem getTags_error_or_empty (m : mandrillCollector) (Do : Request → Except String String) :
    (m.getTags Do).2 = none ∨ (m.getTags Do).1 = [] := by
  unfold mandrillCollector.getTags
  cases Do (newRequest m) with
  | error e => right; rfl
  | ok body =>
    cases h : (Unmarshal body).2 with
    | none => left; simp [h]
    | some e => right; simp [h]

/-- Claim C2. When the transport fails (client.Do returns an error) or
json.Unmarshal returns an error, getTags returns the nil slice together with that
error, and Collect logs the error, sends zero samples and returns without a panic;
moreover getTags never returns a non-empty slice together with a non-nil error. -/
theorem Collect_empty_on_error (m : mandrillCollector) (Do : Request → Except String String)
    (err : String)
    (hfail : Do (newRequest m) = .error err ∨
      ∃ body, Do (newRequest m) = .ok body ∧ (Unmarshal body).2 = some err) :
    m.getTags Do = ([], some err) ∧
      m.Collect Do = .ok { logged := [err], sent := [] } ∧
      ∀ Do1 : Request → Except String String,
        (m.getTags Do1).2 = none ∨ (m.getTags Do1).1 = [] := by
  have hg : m.getTags Do = ([], some err) := by
    unfold mandrillCollector.getTags
    rcases hfail with h | ⟨body, h, hu⟩
    · rw [h]
    · rw [h]; simp [hu]
  exact ⟨hg, Collect_of_getTags m Do [] (some err) hg, getTags_error_or_empty m⟩

/-- Witness of claim C2: a transport failure. -/
theorem Collect_empty_on_error_witness :
    failingDo (newRequest (mandrillCollector.mk "k")) = .error "dial tcp: i/o timeout" ∧
      (mandrillCollector.mk "k").Collect failingDo =
        .ok { logged := ["dial tcp: i/o timeout"], sent := [] } :=
  ⟨rfl, (Collect_empty_on_error (mandrillCollector.mk "k") failingDo "dial tcp: i/o timeout"
    (Or.inl rfl)).2.1⟩

theorem getElem?_of_block {α : Type} (l : List α) (a j : Nat) (hj : j < 11) :
    l[a + j]? = ((l.drop a).take 11)[j]? := by
  rw [List.getElem?_take_of_lt hj, List.getElem?_drop]

/-- Claim C3. For the records r_0..r_{N-1} returned by getTags, the sample at position
11*i + j of the output of Collect (i < N, j < 11) carries the Tag of r_i as label,
the float64 conversion of the j-th field of r_i as value, and the j-th descriptor
that Describe sends: records come in upstream order, unsorted, and the eleven
metrics of a record come in the order of Describe. -/
theorem Collect_order_is_Describe_order (m : mandrillCollector)
    (Do : Request → Except String String) (recs : List mandrillTagData)
    (h : m.getTags Do = (recs, none)) :
    ∃ out, m.Collect Do = .ok out ∧
      ∀ (i j : Nat) (hi : i < recs.length), j < 11 →
        ∃ s, out.sent[11 * i + j]? = some s ∧
          some s.desc = m.Describe[j]? ∧
          s.labelValues = [(recs.get ⟨i, hi⟩).Tag] ∧
          some s.value = ((specFieldValues (recs.get ⟨i, hi⟩)).map float64)[j]? := by
  refine ⟨_, Collect_of_getTags m Do recs none h, ?_⟩
  intro i j hi hj
  show ∃ s, (recs.flatMap tagSamples)[11 * i + j]? = some s ∧ _
  rw [getElem?_of_block _ _ _ hj, flatMap_tagSamples_block recs i hi]
  generalize recs.get ⟨i, hi⟩ = tag
  interval_cases j <;> exact ⟨_, rfl, rfl, rfl, rfl⟩

/-- Witness of claim C3: two records, the second tag sorting before the first. -/
theorem Collect_order_is_Describe_order_witness :
    (mandrillCollector.mk "k").getTags twoTagsDo =
        ([{ mandrillTagData.zero with Tag := "b", Clicks := 3 },
          { mandrillTagData.zero with Tag := "a", Clicks := 4 }], none) ∧
      ∃ out, (mandrillCollector.mk "k").Collect twoTagsDo = .ok out ∧
        ∃ s, out.sent[11 * 1 + 7]? = some s ∧ s.desc = clicks ∧ s.labelValues = ["a"] ∧
          s.value = 4 :=
  ⟨by decide,
   (Collect_order_is_Describe_order (mandrillCollector.mk "k") twoTagsDo
      [{ mandrillTagData.zero with Tag := "b", Clicks := 3 },
       { mandrillTagData.zero with Tag := "a", Clicks := 4 }] (by decide)).imp
     (fun _ h => ⟨h.1, (h.2 1 7 (by decide) (by decide)).imp
       (fun _ hs => ⟨hs.1, by simpa [mandrillCollector.Describe] using hs.2.1,
         hs.2.2.1, by simpa [specFieldValues, float64] using hs.2.2.2⟩)⟩)⟩

/-- Counterexample to claim C4 as stated: for the response with the one record of
tag "news", the samples Collect sends carry the fully-qualified names
mandrill_sent_total, mandrill_hard_bounces, ..., and not one of them is a name of the
specification's table (sent_total, hard_bounces, ...). -/
theorem Collect_names_are_not_table_names :
    ∃ out, (mandrillCollector.mk "k").Collect oneTagDo = .ok out ∧
      out.sent.map (fun s => s.desc.fqName) =
        ["mandrill_sent_total", "mandrill_hard_bounces", "mandrill_soft_bounces",
         "mandrill_rejects", "mandrill_complaints", "mandrill_unsubs", "mandrill_opens",
         "mandrill_clicks", "mandrill_unique_opens", "mandrill_unique_clicks",
         "mandrill_reputation"] ∧
      out.sent.map (fun s => s.desc.fqName) ≠ specMetricNames ∧
      ∀ s ∈ out.sent, s.desc.fqName ∉ specMetricNames := by
  refine ⟨_, Collect_of_getTags (mandrillCollector.mk "k") oneTagDo
    [{ mandrillTagData.zero with Tag := "news", Sent := 7, Reputation := 50 }] none
    (by decide), ?_, ?_, ?_⟩
  · decide
  · decide
  · decide

theorem tagSamples_named (tag : mandrillTagData) :
    (tagSamples tag).map (fun s => (s.desc.fqName, s.value, s.labelValues)) =
      (List.zip qualifiedMetricNames ((specFieldValues tag).map float64)).map
        (fun p => (p.1, p.2, [tag.Tag])) := by
  have hq : qualifiedMetricNames =
      ["mandrill_sent_total", "mandrill_hard_bounces", "mandrill_soft_bounces",
       "mandrill_rejects", "mandrill_complaints", "mandrill_unsubs", "mandrill_opens",
       "mandrill_clicks", "mandrill_unique_opens", "mandrill_unique_clicks",
       "mandrill_reputation"] := by decide
  rw [hq]
  rfl

/-- Claim C4, amended. The fully-qualified names under which Collect emits the
fields of a record are the names of the specification's table behind the
namespace "mandrill_": mandrill_sent_total carries Sent, mandrill_hard_bounces
HardBounces, mandrill_soft_bounces SoftBounces, mandrill_rejects Rejects,
mandrill_complaints Complaints, mandrill_unsubs Unsubs, mandrill_opens Opens,
mandrill_clicks Clicks, mandrill_unique_opens Unique_opens, mandrill_unique_clicks
Unique_clicks and mandrill_reputation Reputation (each as its float64 conversion,
labelled with the record's Tag); these are the names of the descriptors of Describe,
and the eleven names are pairwise distinct. -/
theorem Collect_names_are_qualified_table_names (m : mandrillCollector)
    (Do : Request → Except String String) :
    ∃ out, m.Collect Do = .ok out ∧
      out.sent.map (fun s => (s.desc.fqName, s.value, s.labelValues)) =
        (m.getTags Do).1.flatMap (fun tag =>
          (List.zip qualifiedMetricNames ((specFieldValues tag).map float64)).map
            (fun p => (p.1, p.2, [tag.Tag]))) ∧
      m.Describe.map (fun d => d.fqName) = qualifiedMetricNames ∧
      qualifiedMetricNames.Nodup ∧ qualifiedMetricNames.length = 11 := by
  refine ⟨_, Collect_of_getTags m Do (m.getTags Do).1 (m.getTags Do).2 rfl, ?_, ?_, ?_, ?_⟩
  · simp only [List.map_flatMap, tagSamples_named]
  · unfold mandrillCollector.Describe
    decide
  · decide
  · decide

/-! ## The liveness handler -/

/-- Claim C6. For every value of the health flag read by
atomic.LoadInt32(&healthy), the healthz handler writes status 204 if and only if the
flag equals 1, writes status 503 for every other value, writes no body in either
case, and leaves the flag as it was. -/
theorem healthz_status (flag : Int) :
    ((healthz flag).1.status = 204 ↔ flag = 1) ∧
      ((healthz flag).1.status = 503 ↔ flag ≠ 1) ∧
      (healthz flag).1.body = "" ∧
      (healthz flag).2 = flag := by
  unfold healthz
  by_cases h : flag = 1
  · simp [h, StatusNoContent]
  · simp [h, StatusServiceUnavailable]

/-! ## `main` and the shutdown goroutine -/

theorem run_append (s : State) (a b : List Event) :
    run s (a ++ b) = (run s a).bind (fun s1 => run s1 b) := by
  induction a generalizing s with
  | nil => rfl
  | cons e es ih =>
    simp only [List.cons_append, run]
    cases step s e with
    | none => rfl
    | some s1 => exact ih s1

theorem run_invariant (P : State → Prop)
    (hstep : ∀ s e s1, P s → step s e = some s1 → P s1) :
    ∀ (evs : List Event) (s s1 : State), P s → run s evs = some s1 → P s1 := by
  intro evs
  induction evs with
  | nil =>
    intro s s1 hP h
    simp only [run, Option.some.injEq] at h
    exact h ▸ hP
  | cons e es ih =>
    intro s s1 hP h
    simp only [run] at h
    cases hs : step s e with
    | none => simp [hs] at h
    | some s2 =>
      rw [hs] at h
      exact ih s2 s1 (hstep s e s2 hP hs) h

theorem head_mem_trace (s : State) (evs : List Event) : s ∈ trace s evs := by
  cases evs with
  | nil => simp [trace]
  | cons e es =>
    simp only [trace]
    cases step s e <;> simp

/-- The flag is 1 or the goroutine has stored 0, once `main` has stored 1. -/
theorem step_healthy_or_cleared (s : State) (e : Event) (s1 : State)
    (hP : s.mainPc.storedHealthy = true → s.healthy = 1 ∨ s.goPc.storedUnhealthy = true)
    (h : step s e = some s1) :
    s1.mainPc.storedHealthy = true → s1.healthy = 1 ∨ s1.goPc.storedUnhealthy = true := by
  unfold step at h
  split at h
  · simp at h
  · split at h <;> (try split at h) <;> (try split at h) <;>
      first
      | (simp at h; done)
      | (simp only [Option.some.injEq] at h
         subst h
         simp_all [MainPc.storedHealthy, ShutdownPc.storedUnhealthy])

theorem step_first_store (s : State) (e : Event) (s1 : State)
    (h : step s e = some s1) (h0 : s.mainPc.storedHealthy = false)
    (h1 : s1.mainPc.storedHealthy = true) : s1.healthy = 1 := by
  unfold step at h
  split at h
  · simp at h
  · split at h <;> (try split at h) <;> (try split at h) <;>
      first
      | (simp at h; done)
      | (simp only [Option.some.injEq] at h
         subst h
         simp_all [MainPc.storedHealthy])

theorem run_reaches_healthy (evs : List Event) :
    ∀ (s s1 : State), run s evs = some s1 → s.mainPc.storedHealthy = false →
      s1.mainPc.storedHealthy = true → ∃ t ∈ trace s evs, t.healthy = 1 := by
  induction evs with
  | nil =>
    intro s s1 h h0 h1
    simp only [run, Option.some.injEq] at h
    subst h
    rw [h0] at h1
    exact absurd h1 (by decide)
  | cons e es ih =>
    intro s s1 h h0 h1
    simp only [run] at h
    cases hs : step s e with
    | none => simp [hs] at h
    | some s2 =>
      rw [hs] at h
      simp only [trace, hs]
      cases h2 : s2.mainPc.storedHealthy with
      | true =>
        exact ⟨s2, List.mem_cons_of_mem _ (head_mem_trace s2 es),
          step_first_store s e s2 hs h0 h2⟩
      | false =>
        obtain ⟨t, ht, hv⟩ := ih s2 s1 h h2 h1
        exact ⟨t, List.mem_cons_of_mem _ ht, hv⟩

theorem step_listenFail (s s1 : State) (h : step s Event.listenFail = some s1) :
    s.mainPc = .ready ∧ s1 = { s with mainPc := .fatal, exited := true } := by
  unfold step at h
  split at h
  · simp at h
  · simp only at h
    split at h
    · split at h
      · simp at h
      · simp only [Option.some.injEq] at h
        exact ⟨by assumption, h.symm⟩
    · simp at h

theorem reachable_healthy_or_cleared (evs : List Event) (s : State)
    (h : run State.init evs = some s) :
    s.mainPc.storedHealthy = true → s.healthy = 1 ∨ s.goPc.storedUnhealthy = true :=
  run_invariant
    (fun s => s.mainPc.storedHealthy = true → s.healthy = 1 ∨ s.goPc.storedUnhealthy = true)
    step_healthy_or_cleared evs State.init s (by decide) h

/-- Counterexample to claim C7 as stated: in the execution in which main starts the
goroutine, stores 1 into the flag and ListenAndServe then fails to bind, the flag
goes 0, 0, 1, 1: it holds healthy (1) before the bind is attempted and still
holds 1 when the process exits fatally. -/
theorem bind_failure_flag_is_healthy :
    (trace State.init (bindFailureEvents ++ [Event.listenFail])).map
        (fun s => (s.mainPc, s.exited, s.healthy)) =
      [(.setup, false, 0), (.spawned, false, 0), (.ready, false, 1), (.fatal, true, 1)] := by
  decide

/-- Claim C7, amended. If the listen address cannot be bound, so that
server.ListenAndServe returns an error other than http.ErrServerClosed, the process
exits fatally, and in that run the flag has already taken the value healthy (1):
main stores 1 before it calls ListenAndServe. At the fatal exit the flag still
holds 1, unless the shutdown goroutine has stored 0 in the meantime. -/
theorem bind_failure_after_healthy_store (evs : List Event) (s : State)
    (h : run State.init (evs ++ [Event.listenFail]) = some s) :
    s.mainPc = .fatal ∧ s.exited = true ∧
      (∃ t ∈ trace State.init evs, t.healthy = 1) ∧
      (s.healthy = 1 ∨ s.goPc.storedUnhealthy = true) := by
  rw [run_append] at h
  cases h0 : run State.init evs with
  | none => simp [h0] at h
  | some s0 =>
    rw [h0] at h
    simp only [Option.bind, run] at h
    cases hs : step s0 Event.listenFail with
    | none => simp [hs] at h
    | some s2 =>
      rw [hs] at h
      simp only [Option.some.injEq] at h
      subst h
      obtain ⟨hready, hs2⟩ := step_listenFail s0 s2 hs
      have hstored : s0.mainPc.storedHealthy = true := by rw [hready]; rfl
      refine ⟨by rw [hs2], by rw [hs2], ?_, ?_⟩
      · exact run_reaches_healthy evs State.init s0 h0 (by decide) hstored
      · have := reachable_healthy_or_cleared evs s0 h0 hstored
        rw [hs2]
        exact this

/-- Witness of claim C7 (amended): the bind fails right after the store. -/
theorem bind_failure_after_healthy_store_witness :
    (run State.init (bindFailureEvents ++ [Event.listenFail])).isSome = true ∧
      ∃ t ∈ trace State.init bindFailureEvents, t.healthy = 1 :=
  ⟨by decide,
   (bind_failure_after_healthy_store bindFailureEvents
      { State.init with healthy := 1, mainPc := .fatal, goPc := .waitQuit, exited := true }
      (by decide)).2.2.1⟩

/-- Failing execution for claim C8: the signal is delivered after the goroutine
was started and before main reaches line 163. The goroutine stores 0 (fifth state),
then main stores 1 (sixth state): the flag holds healthy after the unhealthy
transition, with the goroutine past its store. -/
theorem early_signal_flag_returns_to_healthy :
    (trace State.init earlySignalEvents).map
        (fun s => (s.mainPc, s.goPc, s.healthy)) =
      [(.setup, .notStarted, 0), (.spawned, .waitQuit, 0), (.spawned, .waitQuit, 0),
       (.spawned, .signalled, 0), (.spawned, .flagCleared, 0), (.ready, .flagCleared, 1)] ∧
      (run State.init earlySignalEvents).map
        (fun s => (s.goPc.storedUnhealthy, s.healthy)) = some (true, 1) := by
  decide

theorem step_unhealthy_terminal (s : State) (e : Event) (s1 : State)
    (hP : s.mainPc.storedHealthy = true ∧ s.goPc.storedUnhealthy = true ∧ s.healthy = 0)
    (h : step s e = some s1) :
    s1.mainPc.storedHealthy = true ∧ s1.goPc.storedUnhealthy = true ∧ s1.healthy = 0 := by
  unfold step at h
  split at h
  · simp at h
  · split at h <;> (try split at h) <;> (try split at h) <;>
      first
      | (simp at h; done)
      | (simp only [Option.some.injEq] at h
         subst h
         simp_all [MainPc.storedHealthy, ShutdownPc.storedUnhealthy])

/-- Once main has stored 1 and the goroutine has then stored 0, the flag stays 0 in
every continuation: the unhealthy transition is terminal when the signal is handled
after line 163. -/
theorem unhealthy_terminal_after_ready (evs : List Event) (s s1 : State)
    (hm : s.mainPc.storedHealthy = true) (hg : s.goPc.storedUnhealthy = true)
    (hf : s.healthy = 0) (h : run s evs = some s1) : s1.healthy = 0 :=
  (run_invariant
    (fun s => s.mainPc.storedHealthy = true ∧ s.goPc.storedUnhealthy = true ∧ s.healthy = 0)
    step_unhealthy_terminal evs s s1 ⟨hm, hg, hf⟩ h).2.2

theorem step_server_follows_goroutine (s : State) (e : Event) (s1 : State)
    (hP : (s.mainPc = .setup → s.goPc = .notStarted) ∧
      s.keepAlives = !s.goPc.disabledKeepAlives ∧
      s.inShutdown = s.goPc.calledShutdown ∧
      s.ctxTimeout = if s.goPc.madeCtx then some drainTimeout else none)
    (h : step s e = some s1) :
    (s1.mainPc = .setup → s1.goPc = .notStarted) ∧
      s1.keepAlives = !s1.goPc.disabledKeepAlives ∧
      s1.inShutdown = s1.goPc.calledShutdown ∧
      s1.ctxTimeout = if s1.goPc.madeCtx then some drainTimeout else none := by
  unfold step at h
  split at h
  · simp at h
  · split at h <;> (try split at h) <;> (try split at h) <;>
      first
      | (simp at h; done)
      | (simp only [Option.some.injEq] at h
         subst h
         simp_all [ShutdownPc.disabledKeepAlives, ShutdownPc.calledShutdown,
           ShutdownPc.madeCtx])

theorem disabledKeepAlives_after_store (p : ShutdownPc) (h : p.disabledKeepAlives = true) :
    p.storedUnhealthy = true ∧ p.madeCtx = true := by
  cases p <;> simp_all [ShutdownPc.disabledKeepAlives, ShutdownPc.storedUnhealthy,
    ShutdownPc.madeCtx]

theorem calledShutdown_after_disable (p : ShutdownPc) (h : p.calledShutdown = true) :
    p.disabledKeepAlives = true := by
  cases p <;> simp_all [ShutdownPc.disabledKeepAlives, ShutdownPc.calledShutdown]

/-- Counterexample to claim C9 as stated: in the execution that serves and then
receives the signal, right after the goroutine flipped the flag to 0 the server
still has keep-alives enabled, so keep-alive was not disabled before the flip. -/
theorem flag_flipped_with_keepalives_on :
    (run State.init (gracefulEvents.take 6)).map
        (fun s => (s.goPc, s.healthy, s.keepAlives)) = some (.flagCleared, 0, true) ∧
      (trace State.init gracefulEvents).map (fun s => (s.healthy, s.keepAlives)) =
        [(0, true), (0, true), (1, true), (1, true), (1, true), (1, true), (0, true),
         (0, true), (0, false), (0, false), (0, false), (0, false), (0, false),
         (0, false)] := by
  decide

/-- Claim C9, amended. In the shutdown sequence run on a termination signal, the
controller flips the health flag to unhealthy (atomic.StoreInt32(&healthy, 0))
before it disables connection keep-alive (server.SetKeepAlivesEnabled(false)):
whenever keep-alives are disabled the goroutine has already executed the store,
right after the store they are still enabled, and the statement the goroutine
executes after receiving the signal sets the flag to 0 with keep-alives still
enabled. Keep-alive is disabled before server.Shutdown is called, and the context passed to
server.Shutdown has the fixed timeout of 5 seconds. -/
theorem shutdown_sequence_order (evs : List Event) (s : State)
    (h : run State.init evs = some s) :
    (s.keepAlives = false → s.goPc.storedUnhealthy = true) ∧
      (s.goPc = .flagCleared → s.keepAlives = true) ∧
      (s.inShutdown = true →
        s.keepAlives = false ∧ s.ctxTimeout = some (5 * 1000000000)) ∧
      (s.goPc = .signalled → s.exited = false →
        (step s Event.goStep).map (fun t => (t.goPc, t.healthy, t.keepAlives)) =
          some (.flagCleared, 0, true)) := by
  have hinv := run_invariant
    (fun s => (s.mainPc = .setup → s.goPc = .notStarted) ∧
      s.keepAlives = !s.goPc.disabledKeepAlives ∧
      s.inShutdown = s.goPc.calledShutdown ∧
      s.ctxTimeout = if s.goPc.madeCtx then some drainTimeout else none)
    step_server_follows_goroutine evs State.init s (by decide) h
  obtain ⟨_, hk, hsd, hc⟩ := hinv
  refine ⟨?_, ?_, ?_, ?_⟩
  rotate_left 3
  · intro hpc hex
    have hka : s.keepAlives = true := by rw [hk, hpc]; rfl
    simp [step, hpc, hex, hka]
  · intro hka
    have hd : s.goPc.disabledKeepAlives = true := by
      rw [hka] at hk
      cases hx : s.goPc.disabledKeepAlives <;> simp_all
    exact (disabledKeepAlives_after_store _ hd).1
  · intro hpc
    rw [hk, hpc]
    rfl
  · intro hin
    have hcs : s.goPc.calledShutdown = true := by rw [← hsd]; exact hin
    have hd := calledShutdown_after_disable _ hcs
    have hm := (disabledKeepAlives_after_store _ hd).2
    refine ⟨by rw [hk, hd]; rfl, ?_⟩
    rw [hc, hm]
    rfl

/-- Witness of claim C9 (amended): the execution that serves, is interrupted and
shuts down in time. -/
theorem shutdown_sequence_order_witness :
    run State.init gracefulEvents = some gracefulFinal ∧
      gracefulFinal.inShutdown = true ∧
      gracefulFinal.keepAlives = false ∧
      gracefulFinal.ctxTimeout = some (5 * 1000000000) :=
  ⟨by decide, by decide,
   (shutdown_sequence_order gracefulEvents gracefulFinal (by decide)).2.2.1 (by decide)⟩

/-! ## Decoding -/

theorem getInt_setInt (t : mandrillTagData) (f g : Field) (n : Int) (hf : f ≠ .Tag) :
    (t.setInt f n).getInt g = if f = g then n else t.getInt g := by
  cases f <;> cases g <;> first | exact absurd rfl hf | rfl

theorem Tag_setInt (t : mandrillTagData) (f : Field) (n : Int) : (t.setInt f n).Tag = t.Tag := by
  cases f <;> rfl

/-- What the decoder does with a well-typed member whose key denotes a field. -/
theorem decodeField_wellTyped (t : mandrillTagData) (k : String) (v : JValue) (f : Field)
    (hk : fieldOfKey k = some f) (hw : wellTypedMember (k, v) = true) :
    (decodeField t f v).2 = none ∧
      (∀ g, g ≠ .Tag → ((decodeField t f v).1.getInt g =
          if f = g then (match v with | .int n => n | _ => 0) else t.getInt g)) ∧
      ((decodeField t f v).1.Tag =
          if f = .Tag then (match v with | .str x => x | _ => "") else t.Tag) ∧
      (f = .Tag → ∃ x, v = .str x) ∧ (f ≠ .Tag → ∃ n, v = .int n) := by
  unfold wellTypedMember at hw
  simp only [hk] at hw
  cases f with
  | Tag =>
    cases v <;> simp_all [decodeField]
    intro g hg
    cases g <;> first | exact absurd rfl hg | rfl
  | _ =>
    cases v <;> simp_all [decodeField]
    all_goals
      refine ⟨?_, ?_⟩
      · intro g hg
        rw [getInt_setInt _ _ _ _ (by decide)]
      · exact Tag_setInt _ _ _

theorem decodeMembers_wellTyped (ms : List (String × JValue)) :
    ∀ t : mandrillTagData, ms.all wellTypedMember = true →
      (decodeMembers t ms).2 = none ∧
      (∀ g, g ≠ .Tag →
        (memberFor g ms = none ∧ (decodeMembers t ms).1.getInt g = t.getInt g) ∨
        (∃ n, memberFor g ms = some (.int n) ∧ (decodeMembers t ms).1.getInt g = n)) ∧
      ((memberFor .Tag ms = none ∧ (decodeMembers t ms).1.Tag = t.Tag) ∨
        (∃ x, memberFor .Tag ms = some (.str x) ∧ (decodeMembers t ms).1.Tag = x)) := by
  induction ms with
  | nil =>
    intro t _
    exact ⟨rfl, fun g _ => Or.inl ⟨rfl, rfl⟩, Or.inl ⟨rfl, rfl⟩⟩
  | cons kv rest ih =>
    obtain ⟨k, v⟩ := kv
    intro t hall
    simp only [List.all_cons, Bool.and_eq_true] at hall
    obtain ⟨hkv, hrest⟩ := hall
    cases hk : fieldOfKey k with
    | none =>
      obtain ⟨h1, h2, h3⟩ := ih t hrest
      simp only [decodeMembers, hk, memberFor]
      refine ⟨h1, ?_, ?_⟩
      · intro g hg
        rcases h2 g hg with ⟨ha, hb⟩ | ⟨n, ha, hb⟩
        · left; simp [ha, hb]
        · right; exact ⟨n, by simp [ha], hb⟩
      · rcases h3 with ⟨ha, hb⟩ | ⟨x, ha, hb⟩
        · left; simp [ha, hb]
        · right; exact ⟨x, by simp [ha], hb⟩
    | some f =>
      obtain ⟨d1, d2, d3, d4, d5⟩ := decodeField_wellTyped t k v f hk hkv
      obtain ⟨h1, h2, h3⟩ := ih (decodeField t f v).1 hrest
      simp only [decodeMembers, hk, memberFor]
      refine ⟨by simp [firstError, d1, h1], ?_, ?_⟩
      · intro g hg
        rcases h2 g hg with ⟨ha, hb⟩ | ⟨n, ha, hb⟩
        · rw [d2 g hg] at hb
          by_cases hfg : f = g
          · subst hfg
            obtain ⟨n, hv⟩ := d5 hg
            subst hv
            right
            exact ⟨n, by simp [ha], by simpa using hb⟩
          · left
            have hne : ¬ (some f = some g) := fun h => hfg (Option.some.inj h)
            exact ⟨by simp [ha, hne], by simpa [hfg] using hb⟩
        · right; exact ⟨n, by simp [ha], hb⟩
      · rcases h3 with ⟨ha, hb⟩ | ⟨x, ha, hb⟩
        · rw [d3] at hb
          by_cases hft : f = .Tag
          · subst hft
            obtain ⟨x, hv⟩ := d4 rfl
            subst hv
            right
            exact ⟨x, by simp [ha], by simpa using hb⟩
          · left
            have hne : ¬ (some f = some Field.Tag) := fun h => hft (Option.some.inj h)
            exact ⟨by simp [ha, hne], by simpa [hft] using hb⟩
        · right; exact ⟨x, by simp [ha], hb⟩

theorem getInt_zero (g : Field) : mandrillTagData.zero.getInt g = 0 := by
  cases g <;> rfl

theorem decodeElems_wellTyped (elems : List JValue)
    (hall : elems.all wellTypedObject = true) :
    (decodeElems elems).2 = none ∧
      List.Forall₂
        (fun ms r =>
          (∀ g, g ≠ Field.Tag →
            (memberFor g ms = none ∧ mandrillTagData.getInt r g = 0) ∨
            (∃ n, memberFor g ms = some (.int n) ∧ mandrillTagData.getInt r g = n)) ∧
          ((memberFor .Tag ms = none ∧ r.Tag = "") ∨
            (∃ x, memberFor .Tag ms = some (.str x) ∧ r.Tag = x)))
        (elems.map JValue.members) (decodeElems elems).1 := by
  induction elems with
  | nil => exact ⟨rfl, List.Forall₂.nil⟩
  | cons v rest ih =>
    simp only [List.all_cons, Bool.and_eq_true] at hall
    obtain ⟨hv, hrest⟩ := hall
    obtain ⟨h1, h2⟩ := ih hrest
    cases v with
    | obj ms =>
      have hms : ms.all wellTypedMember = true := hv
      obtain ⟨e1, e2, e3⟩ := decodeMembers_wellTyped ms mandrillTagData.zero hms
      refine ⟨by simp [decodeElems, decodeElem, firstError, e1, h1], ?_⟩
      simp only [decodeElems, decodeElem, List.map_cons, JValue.members]
      refine List.Forall₂.cons ⟨?_, ?_⟩ h2
      · intro g hg
        rcases e2 g hg with ⟨ha, hb⟩ | ⟨n, ha, hb⟩
        · left; exact ⟨ha, by rw [hb, getInt_zero]⟩
        · right; exact ⟨n, ha, hb⟩
      · rcases e3 with ⟨ha, hb⟩ | ⟨x, ha, hb⟩
        · left; exact ⟨ha, by rw [hb]; rfl⟩
        · right; exact ⟨x, ha, hb⟩
    | _ => simp [wellTypedObject] at hv

/-- Counterexample to claim C5 as stated: the body
[{"Tag":"welcome","Sent":"100"}] is a JSON array of objects, yet json.Unmarshal
rejects the string given for the int field Sent, and getTags returns the nil slice
with that error instead of succeeding. -/
theorem getTags_fails_on_array_of_objects :
    isArrayOfObjects stringSentBody = true ∧
      (mandrillCollector.mk "k").getTags stringSentDo =
        ([], some ("json: cannot unmarshal string into Go struct field " ++
          "mandrillTagData.Sent of type int")) := by
  decide

/-- Claim C5, amended. For every upstream body that is a JSON array of objects in
which every member whose key denotes a record field carries a value of the type of
that field (a string for Tag, an integer literal of the int range for a numeric
field), getTags succeeds and decodes the objects, in order, into one mandrillTagData
each: a numeric field that no member of the object denotes is 0 (absence never
causes a parse failure), and every field that a member denotes has the value of the
(last such) member of the payload; likewise Tag is empty when absent. -/
theorem getTags_decodes_well_typed_objects (m : mandrillCollector)
    (Do : Request → Except String String) (body : String)
    (hdo : Do (newRequest m) = .ok body) (hwt : wellTypedBody body = true) :
    isArrayOfObjects body = true ∧
    ∃ recs, m.getTags Do = (recs, none) ∧
      List.Forall₂
        (fun ms r =>
          (∀ g, g ≠ Field.Tag →
            (memberFor g ms = none ∧ mandrillTagData.getInt r g = 0) ∨
            (∃ n, memberFor g ms = some (.int n) ∧ mandrillTagData.getInt r g = n)) ∧
          ((memberFor .Tag ms = none ∧ r.Tag = "") ∨
            (∃ x, memberFor .Tag ms = some (.str x) ∧ r.Tag = x)))
        (bodyObjects body) recs := by
  unfold wellTypedBody at hwt
  cases hp : parseJSON body with
  | none => simp [hp] at hwt
  | some v =>
    cases v with
    | arr elems =>
      simp only [hp] at hwt
      obtain ⟨h1, h2⟩ := decodeElems_wellTyped elems hwt
      constructor
      · simp only [isArrayOfObjects, hp]
        rw [List.all_eq_true] at hwt ⊢
        intro x hx
        have := hwt x hx
        cases x <;> simp_all [wellTypedObject, JValue.isObject]
      · refine ⟨(decodeElems elems).1, ?_, ?_⟩
        · simp [mandrillCollector.getTags, hdo, Unmarshal, hp, h1]
        · simpa [bodyObjects, hp] using h2
    | _ => simp [hp] at hwt

/-- Witness of claim C5 (amended): the scenario of the specification. The body
[{"Tag":"welcome","Sent":100,"hard_bounces":2,"Opens":40,"Reputation":85}] is well
typed, getTags decodes it, and Collect emits for tag "welcome" the values sent=100,
hard bounces=2, opens=40, reputation=85 and 0 for soft bounces, rejects,
complaints, unsubs, clicks, unique opens and unique clicks. -/
theorem getTags_decodes_well_typed_objects_witness :
    wellTypedBody welcomeBody = true ∧
      (∃ recs, (mandrillCollector.mk "k").getTags welcomeDo = (recs, none) ∧
        recs.length = (bodyObjects welcomeBody).length) ∧
      (mandrillCollector.mk "k").getTags welcomeDo =
        ([{ mandrillTagData.zero with
              Tag := "welcome", Sent := 100, HardBounces := 2, Opens := 40,
              Reputation := 85 }], none) ∧
      ((mandrillCollector.mk "k").Collect welcomeDo).map
          (fun out => out.sent.map (fun s => (s.desc.fqName, s.value, s.labelValues))) =
        .ok [("mandrill_sent_total", 100, ["welcome"]),
             ("mandrill_hard_bounces", 2, ["welcome"]),
             ("mandrill_soft_bounces", 0, ["welcome"]),
             ("mandrill_rejects", 0, ["welcome"]),
             ("mandrill_complaints", 0, ["welcome"]),
             ("mandrill_unsubs", 0, ["welcome"]),
             ("mandrill_opens", 40, ["welcome"]),
             ("mandrill_clicks", 0, ["welcome"]),
             ("mandrill_unique_opens", 0, ["welcome"]),
             ("mandrill_unique_clicks", 0, ["welcome"]),
             ("mandrill_reputation", 85, ["welcome"])] :=
  ⟨by decide,
   (getTags_decodes_well_typed_objects (mandrillCollector.mk "k") welcomeDo welcomeBody
      rfl (by decide)).2.imp (fun _ h => ⟨h.1, h.2.length_eq.symm⟩),
   by decide, by decide⟩

/-! ## The request body -/

/-- Failing inputs for claim C10. For the credential a"b the body getTags builds
is the text {"key": "a"b"}: it is not a JSON document. The same holds for a
credential ending in a backslash. For the credential a\nb (backslash, n) the body
is well formed but its "key" decodes to a line feed in place of the two characters,
and a credential can close the string and add a member of its own. -/
theorem requestBody_not_json_for_quote :
    requestBody quoteKey = "\x7b\"key\": \"a\"b\"\x7d" ∧
      (parseJSON (requestBody quoteKey)).isNone = true ∧
      decodedKey (requestBody quoteKey) = none ∧
      (parseJSON (requestBody backslashKey)).isNone = true ∧
      decodedKey (requestBody escapeKey) = some "a\nb" ∧
      decodedKey (requestBody escapeKey) ≠ some escapeKey.apiKey ∧
      ((parseJSON (requestBody injectingKey)).map
        (fun v => v.members.map (fun kv => kv.1))) = some ["key", "id"] := by
  decide

theorem parseStringBody_plain (cs rest : List Char) (h : cs.all plainChar = true) :
    parseStringBody none (cs ++ '"' :: rest) = some (cs, rest) := by
  induction cs with
  | nil =>
    rw [List.nil_append, parseStringBody.eq_def]
    simp [flushPending]
  | cons c cs ih =>
    simp only [List.all_cons, Bool.and_eq_true] at h
    obtain ⟨hc, hcs⟩ := h
    simp only [plainChar, Bool.and_eq_true, bne_iff_ne, ne_eq, decide_eq_true_eq] at hc
    obtain ⟨⟨h1, h2⟩, h3⟩ := hc
    have h4 : ¬ c.toNat < 32 := by omega
    rw [List.cons_append, parseStringBody.eq_def]
    simp only [if_neg h1, if_neg h2, if_neg h4, ih hcs, flushPending]
    rfl

theorem skipSpace_cons_of_not_space (c : Char) (cs : List Char) (h : isSpace c = false) :
    skipSpace (c :: cs) = c :: cs := by
  simp [skipSpace, h]

theorem parseValue_requestBody (f : Nat) (cs : List Char) (h : cs.all plainChar = true) :
    parseValue (f + 3) 0 ("\x7b\"key\": \"".data ++ cs ++ "\"\x7d".data) =
      some (.obj [("key", .str (String.mk cs))], []) := by
  have hs := parseStringBody_plain cs ['}'] h
  have hk : parseStringBody none
      ('k' :: 'e' :: 'y' :: '"' :: ':' :: ' ' :: '"' :: (cs ++ ['"', '}'])) =
      some (['k', 'e', 'y'], ':' :: ' ' :: '"' :: (cs ++ ['"', '}'])) :=
    parseStringBody_plain ['k', 'e', 'y'] _ (by decide)
  have hv : parseValue (f + 1) 1 (' ' :: '"' :: (cs ++ ['"', '}'])) =
      some (.str (String.mk cs), ['}']) := by
    rw [parseValue.eq_def]
    simp only [skipSpace, isSpace]
    simp [hs]
  have hm : parseMembers (f + 2) 1
      ('"' :: 'k' :: 'e' :: 'y' :: '"' :: ':' :: ' ' :: '"' :: (cs ++ ['"', '}'])) =
      some ([("key", .str (String.mk cs))], []) := by
    rw [parseMembers.eq_def]
    simp only [skipSpace_cons_of_not_space '"' _ (by decide), hk,
      skipSpace_cons_of_not_space ':' _ (by decide), hv,
      skipSpace_cons_of_not_space '}' _ (by decide)]
  show parseValue (f + 3) 0
    ('{' :: '"' :: 'k' :: 'e' :: 'y' :: '"' :: ':' :: ' ' :: '"' :: (cs ++ ['"', '}'])) = _
  rw [parseValue.eq_def]
  simp only [skipSpace_cons_of_not_space '{' _ (by decide),
    skipSpace_cons_of_not_space '"' _ (by decide), hm]
  simp [maxNestingDepth]

/-- For a credential (the empty one included) without double quote, backslash and
control character, the body getTags builds is the JSON object with the single
member "key" whose string value is the credential. -/
theorem requestBody_json_for_plain_key (m : mandrillCollector)
    (h : m.apiKey.data.all plainChar = true) :
    decodedKey (requestBody m) = some m.apiKey := by
  have hd : (requestBody m).data =
      "\x7b\"key\": \"".data ++ m.apiKey.data ++ "\"\x7d".data := by
    simp [requestBody, String.data_append]
  have hl : 2 * (requestBody m).length + 2 = (2 * m.apiKey.data.length + 21) + 3 := by
    have h1 : "\x7b\"key\": \"".data.length = 9 := by decide
    have h2 : "\"\x7d".data.length = 2 := by decide
    simp only [String.length, hd, List.length_append, h1, h2]
    omega
  unfold decodedKey parseJSON
  rw [hl, hd, parseValue_requestBody _ _ h]
  simp [skipSpace]

end Mandrill
